import Mathlib

/-!
Shallow embedding of the wplace-archive-world-map repository (Go) used to
check its natural-language specification.  Pixel bytes, palette indices and
CRC values are modelled as `Nat` (the Go code only compares them for
equality and uses the constant 0); byte strings are modelled as `List Nat`
of their byte values; fallible Go functions returning `(T, error)` are
modelled as `Except`/`Option` values.
-/

namespace Wplace

/-! ## img package: paletted images, diffing (src/img/diff.go) -/

/-- A Go `image.Paletted`: its palette (a list of RGBA quadruples, compared
with `reflect.DeepEqual` in the source) and its pixel bytes `Pix`. -/
structure Paletted where
  palette : List (Nat × Nat × Nat × Nat)
  pix : List Nat
deriving DecidableEq

/-- Errors of the diff codec (`fmt.Errorf` messages in the source; only their
identity matters here). -/
inductive ImgErr where
  | differentPalettes
  | differentSizes
deriving DecidableEq

/-- `DiffPaletted` from src/img/diff.go: per-pixel diff of two paletted
images.  The loop writes `new.Pix[i]` where the pixels differ and `0`
(transparent) where they agree, and sets `changes` whenever
`base.Pix[i] != new.Pix[i]`.  The produced image carries `base.Palette`. -/
def DiffPaletted (base new : Paletted) : Except ImgErr (Paletted × Bool) :=
  if base.palette ≠ new.palette then .error .differentPalettes
  else if base.pix.length ≠ new.pix.length then .error .differentSizes
  else .ok (⟨base.palette, List.zipWith (fun b n => if b ≠ n then n else 0) base.pix new.pix⟩,
            (List.zip base.pix new.pix).any (fun p => p.1 != p.2))

/-- `UnDiffPaletted` from src/img/diff.go: where the diff pixel is 0 the base
pixel is kept, otherwise the diff pixel wins. -/
def UnDiffPaletted (base new : Paletted) : Except ImgErr Paletted :=
  if base.palette ≠ new.palette then .error .differentPalettes
  else if base.pix.length ≠ new.pix.length then .error .differentSizes
  else .ok ⟨base.palette, List.zipWith (fun b n => if n = 0 then b else n) base.pix new.pix⟩

/-! ## img package: 2x2 majority merge (src/img/merge.go) -/

/-- `MostNonTransparentColor2x2Paletted` from src/img/merge.go.  The final
`for _, v := range []uint8{a,b,c,d}` loop with its trailing `return 0`
fallback is modelled by `List.find?` with default 0. -/
def MostNonTransparentColor2x2Paletted (a b c d t : Nat) : Nat :=
  if a = t ∧ b = t ∧ c = t ∧ d = t then 0
  else if ¬a = t ∧ a = b ∧ a = c then a
  else if ¬a = t ∧ a = b ∧ a = d then a
  else if ¬a = t ∧ a = c ∧ a = d then a
  else if ¬b = t ∧ b = c ∧ b = d then b
  else if ¬a = t ∧ a = b then a
  else if ¬a = t ∧ a = c then a
  else if ¬a = t ∧ a = d then a
  else if ¬b = t ∧ b = c then b
  else if ¬b = t ∧ b = d then b
  else if ¬c = t ∧ c = d then c
  else ((([a, b, c, d] : List Nat).find? (fun v => v != t)).getD 0)

/-- The majority-non-transparent reference of the specification (4.6.1),
written from the spec's words with sentinel 0: all-transparent gives 0, then
the four triple tests, then the pairs in the order ab, ac, ad, bc, bd, cd
(a pair counts when its members agree and its first member is
non-transparent), then the first non-transparent index in order a, b, c, d,
and finally 0. -/
def MostNonTransparentColor2x2Ref (a b c d : Nat) : Nat :=
  if a = 0 ∧ b = 0 ∧ c = 0 ∧ d = 0 then 0
  else if a = b ∧ a = c ∧ ¬a = 0 then a
  else if a = b ∧ a = d ∧ ¬a = 0 then a
  else if a = c ∧ a = d ∧ ¬a = 0 then a
  else if b = c ∧ b = d ∧ ¬b = 0 then b
  else if a = b ∧ ¬a = 0 then a
  else if a = c ∧ ¬a = 0 then a
  else if a = d ∧ ¬a = 0 then a
  else if b = c ∧ ¬b = 0 then b
  else if b = d ∧ ¬b = 0 then b
  else if c = d ∧ ¬c = 0 then c
  else if ¬a = 0 then a
  else if ¬b = 0 then b
  else if ¬c = 0 then c
  else if ¬d = 0 then d
  else 0

/-! ## img package: the static palette (src/unnamed/part_006) -/

/-- The static `colorToIndex` table, entry for entry in source order:
each RGB triple paired with its palette index. -/
def colorToIndex : List ((Nat × Nat × Nat) × Nat) :=
  [((0, 0, 0), 1),
   ((60, 60, 60), 2),
   ((120, 120, 120), 3),
   ((170, 170, 170), 32),
   ((210, 210, 210), 4),
   ((255, 255, 255), 5),
   ((96, 0, 24), 6),
   ((165, 14, 30), 33),
   ((237, 28, 36), 7),
   ((250, 128, 114), 34),
   ((228, 92, 26), 35),
   ((255, 127, 39), 8),
   ((246, 170, 9), 9),
   ((249, 221, 59), 10),
   ((255, 250, 188), 11),
   ((156, 132, 49), 37),
   ((197, 173, 49), 38),
   ((232, 212, 95), 39),
   ((74, 107, 58), 40),
   ((90, 148, 74), 41),
   ((132, 197, 115), 42),
   ((14, 185, 104), 12),
   ((19, 230, 123), 13),
   ((135, 255, 94), 14),
   ((12, 129, 110), 15),
   ((16, 174, 166), 16),
   ((19, 225, 190), 17),
   ((15, 121, 159), 43),
   ((96, 247, 242), 20),
   ((187, 250, 242), 44),
   ((40, 80, 158), 18),
   ((64, 147, 228), 19),
   ((125, 199, 255), 45),
   ((77, 49, 184), 46),
   ((107, 80, 246), 21),
   ((153, 177, 251), 22),
   ((74, 66, 132), 47),
   ((122, 113, 196), 48),
   ((181, 174, 241), 49),
   ((120, 12, 153), 23),
   ((170, 56, 185), 24),
   ((224, 159, 249), 25),
   ((203, 0, 122), 26),
   ((236, 31, 128), 27),
   ((243, 141, 169), 28),
   ((155, 82, 73), 53),
   ((209, 128, 120), 54),
   ((250, 182, 164), 55),
   ((104, 70, 52), 29),
   ((149, 104, 42), 30),
   ((219, 164, 99), 50),
   ((123, 99, 82), 56),
   ((156, 132, 107), 57),
   ((214, 181, 148), 36),
   ((209, 128, 81), 51),
   ((248, 178, 119), 31),
   ((255, 197, 165), 52),
   ((109, 100, 63), 61),
   ((148, 140, 107), 62),
   ((205, 197, 158), 63),
   ((51, 57, 65), 58),
   ((109, 117, 141), 59),
   ((179, 185, 209), 60)]

/-- Entry `i` of the 64-entry palette built by `Paletter.buildPalette`
(src/unnamed/part_006) as an RGBA quadruple: the table's colour with alpha
255 where some table entry carries index `i`, and transparent black
otherwise (the map iteration order of the Go loop is immaterial because the
indices are pairwise distinct, which the corresponding theorem proves). -/
def paletteColor (i : Nat) : Nat × Nat × Nat × Nat :=
  match colorToIndex.find? (fun e => e.2 == i) with
  | some e => (e.1.1, e.1.2.1, e.1.2.2, 255)
  | none => (0, 0, 0, 0)

/-! ## store package: the tile store (src/unnamed/part_000) and the
ingester (src/store/ingest.go) -/

/-- Outcome of a `sql.Row.Scan` on the stat statement: `noRows` stands for
`sql.ErrNoRows`, `other` for any other database failure. -/
inductive RowErr where
  | noRows
  | other
deriving DecidableEq

/-- A `store.TileDB` handle.  Its prepared statements are modelled as
oracles giving the database's answer for each coordinate: `stmtStat` yields
the stored crc32 or a scan error, `getTile` the stored bytes (`none` on any
error), and `putOk` tells whether `PutTile`'s retry loop succeeds. -/
structure TileDB where
  stmtStat : Int → Int → Int → Except RowErr Nat
  getTile : Int → Int → Int → Option (List Nat)
  putOk : Bool

/-- `TileDB.StatTile` from src/unnamed/part_000: scan the stat row; on
`sql.ErrNoRows` report `(false, 0)` with a nil error, on any other error
report it (the source wraps it with `fmt.Errorf`, modelled as the error
itself), otherwise `(true, crc)`. -/
def TileDB.StatTile (db : TileDB) (z x y : Int) : Bool × Nat × Option RowErr :=
  match db.stmtStat z x y with
  | .error e => if e = RowErr.noRows then (false, 0, none) else (false, 0, some e)
  | .ok crc => (true, crc, none)

/-- Oracles for the image codec calls made by `Ingester.processData`:
`decodeImage` models `img.DecodeImage` (`none` on decode failure),
`pngPack` models `Paletter.PngPack` recoding, and `diff` models `img.Diff`
(`none` on failure, otherwise the diff bytes and the changes flag). -/
structure ImgEnv where
  decodeImage : List Nat → Option (List Nat)
  pngPack : List Nat → List Nat
  diff : List Nat → List Nat → Option (List Nat × Bool)

/-- A `store.Job` record handed to a consumer: coordinates, raw PNG bytes
and the source crc32. -/
structure IngestJobRec where
  Z : Int
  X : Int
  Y : Int
  Data : List Nat
  Crc32 : Nat

/-- Observable outcome of one `processData` call: its `(skip, error)`
return value (`failed` = the error was non-nil), plus whether
`img.DecodeImage` was reached and whether `PutTile` was reached. -/
structure ProcOutcome where
  skip : Bool
  failed : Bool
  decoded : Bool
  wrote : Bool
deriving DecidableEq

/-- The `store.Ingester` fields used by `processData`. -/
structure Ingester where
  db : TileDB
  baseDB : TileDB
  force : Bool
  useDiff : Bool

/-- `Ingester.processData` from src/store/ingest.go, step for step:
destination stat (skip when present or stat errored, unless forced), CRC
fast path against the base store, decode, optional diff against the base
tile, and the final `PutTile`. -/
def Ingester.processData (g : Ingester) (env : ImgEnv) (j : IngestJobRec) : ProcOutcome :=
  let s1 := g.db.StatTile j.Z j.X j.Y
  if (s1.1 || (s1.2.2).isSome) && !g.force then ⟨true, false, false, false⟩
  else
    let crcSkip :=
      if g.useDiff then
        let s2 := g.baseDB.StatTile j.Z j.X j.Y
        (s2.2.2).isNone && s2.1 && (s2.2.1 == j.Crc32)
      else false
    if crcSkip then ⟨true, false, false, false⟩
    else
      match env.decodeImage j.Data with
      | none => ⟨false, true, true, false⟩
      | some pngImg =>
        let packed := env.pngPack pngImg
        if g.useDiff then
          match g.baseDB.getTile j.Z j.X j.Y with
          | some baseData =>
            match env.diff baseData packed with
            | some (_, changes) =>
              if changes then ⟨false, !g.db.putOk, true, true⟩
              else ⟨true, false, true, false⟩
            | none => ⟨false, !g.db.putOk, true, true⟩
          | none => ⟨false, !g.db.putOk, true, true⟩
        else ⟨false, !g.db.putOk, true, true⟩

/-! ## tileserver package (src/tileserver/server.go) -/

/-- Errors a `GetTile` call can surface: the `sql.ErrNoRows` sentinel, the
`fmt.Errorf` for an unknown version, or any other database error. -/
inductive TileQueryErr where
  | noRows
  | versionNotFound
  | dbErr
deriving DecidableEq

/-- The tile server's per-version prepared statements: each loaded version
paired with an oracle for its `SELECT data FROM tiles` query. -/
structure TileServer where
  stmts : List (List Nat × (Int → Int → Int → Except TileQueryErr (List Nat)))

/-- `TileServer.GetTile` from src/tileserver/server.go: an unknown version
yields the `fmt.Errorf` error (distinct from `sql.ErrNoRows`), otherwise the
prepared statement's answer. -/
def TileServer.GetTile (ts : TileServer) (z x y : Int) (version : List Nat) :
    Except TileQueryErr (List Nat) :=
  match ts.stmts.lookup version with
  | none => .error .versionNotFound
  | some stmt => stmt z x y

/-- The HTTP status produced by `serveTile` (src/tileserver/server.go) once
the three coordinates have parsed as integers and with no `If-None-Match`
header: the range check (written as the source's short-circuit chain), then
`GetTile` with `sql.ErrNoRows` mapped to 404, other errors to 500, success
to 200. -/
def serveTile (ts : TileServer) (z x y : Int) (version : List Nat) : Nat :=
  if z < 0 then 400
  else if z > 11 then 400
  else if x < 0 then 400
  else if y < 0 then 400
  else if x ≥ 2 ^ z.toNat then 400
  else if y ≥ 2 ^ z.toNat then 400
  else
    match ts.GetTile z x y version with
    | .error e => if e = TileQueryErr.noRows then 404 else 500
    | .ok _ => 200

/-! ## plan package (src/plan/plan.go)

Go strings are modelled as lists of their byte values (`Str`); `time.Time`
values are modelled as whole hours since 2025-01-01T00:00 UTC, which covers
every use the planner makes of them (hour arithmetic against that epoch,
truncation to days, hour-resolution formatting, and ordering). -/

/-- A Go string as its list of byte values. -/
abbrev Str := List Nat

/-- Byte values of a string literal (all strings involved are ASCII). -/
def strB (s : String) : Str := s.data.map Char.toNat

/-- Decimal digits of `n`, least significant first, as ASCII bytes; the
fuel argument (instantiated with `n` itself, which is enough) keeps the
recursion structural. -/
def digitsRevAux : Nat → Nat → List Nat
  | 0, _ => []
  | fuel + 1, n => if n = 0 then [] else (n % 10 + 48) :: digitsRevAux fuel (n / 10)

/-- Decimal representation of a natural number as ASCII bytes. -/
def natToStr (n : Nat) : Str :=
  if n = 0 then [48] else (digitsRevAux n n).reverse

/-- The `fmt` package's `%d` formatting of a Go int (45 is the minus
sign). -/
def intToStr (i : Int) : Str :=
  if i < 0 then 45 :: natToStr i.natAbs else natToStr i.toNat

/-- Left-pad a byte string with ASCII zeros up to width `w`. -/
def zeroPad (w : Nat) (s : Str) : Str :=
  List.replicate (w - s.length) 48 ++ s

/-- The `fmt` package's `%03d`: zero-padded to total width 3, the sign
counting towards the width. -/
def intToStr3 (i : Int) : Str :=
  if i < 0 then 45 :: zeroPad 2 (natToStr i.natAbs) else zeroPad 3 (natToStr i.toNat)

/-- `plan.ProcessedVersion`: week number since 2025-01-01 (`Major`), hour in
the week (`Minor`), and the base flag. -/
structure ProcessedVersion where
  Major : Int
  Minor : Int
  IsBase : Bool
deriving DecidableEq

/-- `ProcessedVersion.String` from src/plan/plan.go: `v<major>` for a base
version, else `v<major>.<minor %03d>` (118 is the letter v, 46 the dot). -/
def ProcessedVersion.string (pv : ProcessedVersion) : Str :=
  if pv.IsBase then 118 :: intToStr pv.Major
  else 118 :: (intToStr pv.Major ++ 46 :: intToStr3 pv.Minor)

/-- Whether a byte is an ASCII decimal digit. -/
def isDigitB (b : Nat) : Bool := 48 ≤ b && b ≤ 57

/-- The digits a `fmt.Sscanf` `%d` verb consumes, folded into a number;
`none` when the input starts with no digit. -/
def scanNat (s : Str) : Option Nat :=
  let ds := s.takeWhile isDigitB
  if ds = [] then none else some (ds.foldl (fun a b => a * 10 + (b - 48)) 0)

/-- `fmt.Sscanf` with a single `%d` verb: an optional sign (45 minus, 43
plus) followed by decimal digits; leading-space skipping is immaterial for
the planner's inputs and not modelled. -/
def scanInt (s : Str) : Option Int :=
  match s with
  | [] => none
  | b :: rest =>
    if b = 45 then (scanNat rest).map (fun n => -(n : Int))
    else if b = 43 then (scanNat rest).map (fun n => (n : Int))
    else (scanNat (b :: rest)).map (fun n => (n : Int))

/-- `strings.TrimPrefix(s, "v")`: drop one leading v byte when present. -/
def trimPfxV (s : Str) : Str :=
  match s with
  | 118 :: rest => rest
  | s => s

/-- `strings.Split(s, ".")` for the one-byte separator 46: never empty, and
concatenating the parts with dots gives back `s`. -/
def splitDotB : Str → List Str
  | [] => [[]]
  | b :: bs =>
    if b = 46 then [] :: splitDotB bs
    else
      match splitDotB bs with
      | [] => [[b]]
      | p :: ps => (b :: p) :: ps

/-- `ProcessedVersionFromString` from src/plan/plan.go: trim the leading v,
split on dots; one part parses as a base version (minor left at its zero
value), two parts parse major and minor, anything else is an error
(modelled as `none`). -/
def ProcessedVersionFromString (s : Str) : Option ProcessedVersion :=
  match splitDotB (trimPfxV s) with
  | [p] =>
    match scanInt p with
    | some major => some ⟨major, 0, true⟩
    | none => none
  | [p, q] =>
    match scanInt p, scanInt q with
    | some major, some minor => some ⟨major, minor, false⟩
    | _, _ => none
  | _ => none

/-- `ProcessedVersionFromDate` from src/plan/plan.go, on an hour count `h`
since the 2025-01-01 epoch: major is the week index `h / 168`, minor the
hour in the week `h % 168`, and the base flag starts false. -/
def ProcessedVersionFromDate (h : Nat) : ProcessedVersion :=
  ⟨(h / 168 : Nat), (h % 168 : Nat), false⟩

/-- `plan.TimeAsDay`: truncate a time to midnight UTC, here the hour count
of the day's first hour. -/
def TimeAsDay (h : Nat) : Nat := h / 24 * 24

/-- Gregorian leap-year rule, for the `time.Time` formatting model. -/
def isLeap (y : Nat) : Bool := (y % 4 == 0 && y % 100 != 0) || y % 400 == 0

/-- Days in a Gregorian year. -/
def daysInYear (y : Nat) : Nat := if isLeap y then 366 else 365

/-- Days in month `m` of year `y` (months numbered from 1). -/
def monthLen (y m : Nat) : Nat :=
  if m = 2 then (if isLeap y then 29 else 28)
  else if m = 4 ∨ m = 6 ∨ m = 9 ∨ m = 11 then 30
  else 31

/-- Walk whole years forward from `y` until fewer than a year of days is
left; fuel-bounded to stay structural. -/
def yearFromDays : Nat → Nat → Nat → Nat × Nat
  | 0, y, d => (y, d)
  | fuel + 1, y, d =>
    if d < daysInYear y then (y, d) else yearFromDays fuel (y + 1) (d - daysInYear y)

/-- Walk whole months forward from `m` until fewer than a month of days is
left. -/
def monthFromDays : Nat → Nat → Nat → Nat → Nat × Nat
  | 0, _, m, d => (m, d)
  | fuel + 1, y, m, d =>
    if d < monthLen y m then (m, d) else monthFromDays fuel y (m + 1) (d - monthLen y m)

/-- Go's `Format("2006-01-02T15")` on an hour count since 2025-01-01T00 UTC
(45 is the minus sign, 84 the letter T). -/
def formatDateHourB (h : Nat) : Str :=
  let days := h / 24
  let yd := yearFromDays (days + 1) 2025 days
  let md := monthFromDays 12 yd.1 1 yd.2
  zeroPad 4 (natToStr yd.1) ++ [45] ++ zeroPad 2 (natToStr md.1) ++ [45]
    ++ zeroPad 2 (natToStr (md.2 + 1)) ++ [84] ++ zeroPad 2 (natToStr (h % 24))

/-- `plan.ProcessedFileName`: `<version>_<YYYY-MM-DDTHH>.db` (95 is the
underscore, 46 100 98 the suffix `.db`). -/
def ProcessedFileName (v : ProcessedVersion) (h : Nat) : Str :=
  v.string ++ [95] ++ formatDateHourB h ++ [46, 100, 98]

/-- The fields of `plan.GithubRelease` that `MakeJobs` reads: the datetime
parsed from the release name and the version the release lister derived
from it with `ProcessedVersionFromDate`. -/
structure GithubRelease where
  Datetime : Nat
  Pv : ProcessedVersion
deriving DecidableEq

/-- `plan.ArchiveDone`: one parsed done-folder entry. -/
structure ArchiveDone where
  Version : ProcessedVersion
  Datetime : Nat
  Name : Str
deriving DecidableEq

/-- `plan.ArchiveDoneBase`: the base (zero value when absent, in particular
an empty `Name`) and the diffs recorded for one major. -/
structure ArchiveDoneBase where
  Base : ArchiveDone
  Diffs : List ArchiveDone
deriving DecidableEq

/-- `plan.ArchivesDones`: the day set and the per-major map (an association
list looked up with `List.lookup`). -/
structure ArchivesDones where
  Latest : ArchiveDone
  DatesSet : List Nat
  All : List (Int × ArchiveDoneBase)
deriving DecidableEq

/-- `plan.Job` as `MakeJobs` builds it. -/
structure Job where
  isDiff : Bool
  base : Str
  archive : GithubRelease
  processedFile : Str
deriving DecidableEq

/-- The inner `j` loop of `MakeJobs`'s bubble sort: carry the current
element through the remainder, swapping whenever a later release is
strictly earlier (`Datetime.Before`). -/
def selMin : GithubRelease → List GithubRelease → GithubRelease × List GithubRelease
  | cur, [] => (cur, [])
  | cur, x :: xs =>
    if x.Datetime < cur.Datetime then
      let p := selMin x xs
      (p.1, cur :: p.2)
    else
      let p := selMin cur xs
      (p.1, x :: p.2)

/-- The sort at the top of `MakeJobs` (ascending by datetime), written as
the selection the double loop performs; the fuel is the list length. -/
def sortReleasesAux : Nat → List GithubRelease → List GithubRelease
  | 0, _ => []
  | _, [] => []
  | fuel + 1, x :: xs =>
    let p := selMin x xs
    p.1 :: sortReleasesAux fuel p.2

/-- Sort releases ascending by datetime as `MakeJobs` does. -/
def sortReleases (l : List GithubRelease) : List GithubRelease :=
  sortReleasesAux l.length l

/-- The planner's fatal error (incomplete base archive data). -/
inductive PlanErr where
  | incompleteBase
deriving DecidableEq

/-- The body of `MakeJobs`'s range loop over the sorted releases, carrying
the `newDays` set, the `newBases` map (an association list where cons
shadows, matching Go map overwrite) and the jobs accumulated so far. -/
def MakeJobsLoop (ad : ArchivesDones) :
    List GithubRelease → List Nat → List (Int × Str) → List Job → Except PlanErr (List Job)
  | [], _, _, jobs => .ok jobs
  | archive :: rest, newDays, newBases, jobs =>
    let day := TimeAsDay archive.Datetime
    if day ∈ newDays then MakeJobsLoop ad rest newDays newBases jobs
    else if day ∈ ad.DatesSet then MakeJobsLoop ad rest newDays newBases jobs
    else
      let pv := archive.Pv
      let fromDone : Except PlanErr (Bool × Str) :=
        match ad.All.lookup pv.Major with
        | some major =>
          if major.Base.Name = [] then .error .incompleteBase
          else .ok (true, major.Base.Name)
        | none => .ok (false, [])
      match fromDone with
      | .error e => .error e
      | .ok d =>
        let isDiff := match newBases.lookup pv.Major with
          | some _ => true
          | none => d.1
        let baseName := match newBases.lookup pv.Major with
          | some b => b
          | none => d.2
        let pv2 : ProcessedVersion := ⟨pv.Major, pv.Minor, !isDiff⟩
        let newBases2 :=
          if isDiff then newBases
          else (pv.Major, ProcessedFileName pv2 archive.Datetime) :: newBases
        let job : Job := ⟨isDiff, baseName, archive, ProcessedFileName pv2 archive.Datetime⟩
        MakeJobsLoop ad rest (day :: newDays) newBases2 (jobs ++ [job])

/-- `plan.MakeJobs`: sort the releases ascending and run the planning
loop with empty day/base/job accumulators. -/
def MakeJobs (releases : List GithubRelease) (ad : ArchivesDones) : Except PlanErr (List Job) :=
  MakeJobsLoop ad (sortReleases releases) [] [] []

/-! ## Concrete inputs used by counterexamples and witnesses -/

instance {ε α : Type} [DecidableEq ε] [DecidableEq α] : DecidableEq (Except ε α) := fun x y =>
  match x, y with
  | .ok a, .ok b =>
    if h : a = b then isTrue (congrArg Except.ok h)
    else isFalse (fun hh => h (Except.ok.inj hh))
  | .error a, .error b =>
    if h : a = b then isTrue (congrArg Except.error h)
    else isFalse (fun hh => h (Except.error.inj hh))
  | .ok _, .error _ => isFalse (fun hh => Except.noConfusion hh)
  | .error _, .ok _ => isFalse (fun hh => Except.noConfusion hh)

/-- A tile server whose only loaded version is v1, its query succeeding
everywhere. -/
def tsOnlyV1 : TileServer := ⟨[(strB ("v1"), fun _ _ _ => .ok [])]⟩

/-- A tile server with no loaded version at all. -/
def tsNone : TileServer := ⟨[]⟩

/-- A tile store whose stat statement always reports no rows. -/
def dbNoRows : TileDB := ⟨fun _ _ _ => .error .noRows, fun _ _ _ => none, true⟩

/-- A tile store whose stat statement always fails with a non-no-rows
error. -/
def dbStatFails : TileDB := ⟨fun _ _ _ => .error .other, fun _ _ _ => none, true⟩

/-- An unforced, non-diffing ingester whose destination stat fails. -/
def ingStatFails : Ingester := ⟨dbStatFails, dbNoRows, false, false⟩

/-- A trivial image-codec environment. -/
def imgEnvId : ImgEnv := ⟨fun d => some d, fun d => d, fun _ _ => none⟩

/-- The name of the already-done major-0 base in the planning scenario. -/
def scDoneName : Str := strB ("v0_2025-01-01T00.db")

/-- The five releases of the planning scenario: 2025-01-07T00, 07T12,
08T00, 08T12 and 09T00, as hours since the epoch, each carrying the
version the release lister derives from its date. -/
def scReleases : List GithubRelease :=
  [⟨144, ProcessedVersionFromDate 144⟩, ⟨156, ProcessedVersionFromDate 156⟩,
   ⟨168, ProcessedVersionFromDate 168⟩, ⟨180, ProcessedVersionFromDate 180⟩,
   ⟨192, ProcessedVersionFromDate 192⟩]

/-- The done set of the planning scenario: one base for major 0 (processed
2025-01-01T01), none for major 1, and no day collisions with the
releases. -/
def scDones : ArchivesDones :=
  ⟨⟨⟨0, 0, true⟩, 1, scDoneName⟩, [0], [(0, ⟨⟨⟨0, 0, true⟩, 1, scDoneName⟩, []⟩)]⟩

/-- The day-7 job the code actually emits: a diff against the existing
major-0 base. -/
def scJob1 : Job :=
  ⟨true, scDoneName, ⟨144, ProcessedVersionFromDate 144⟩, strB ("v0.144_2025-01-07T00.db")⟩

/-- The day-8 job the code actually emits: the full base of major 1. -/
def scJob2 : Job :=
  ⟨false, [], ⟨168, ProcessedVersionFromDate 168⟩, strB ("v1_2025-01-08T00.db")⟩

/-- The day-9 job the code actually emits: a diff against the day-8
base. -/
def scJob3 : Job :=
  ⟨true, strB ("v1_2025-01-08T00.db"), ⟨192, ProcessedVersionFromDate 192⟩,
   strB ("v1.024_2025-01-09T00.db")⟩

/-! ## Helper lemmas -/

/-- Bang-equals on equal naturals is false. -/
theorem bne_of_eq (x t : Nat) (h : x = t) : (x != t) = false := by
  subst h
  simp

/-- Bang-equals on different naturals is true. -/
theorem bne_of_ne (x t : Nat) (h : ¬x = t) : (x != t) = true := by
  simp [h]

/-- The final loop of `MostNonTransparentColor2x2Paletted` (first value
different from the sentinel, default 0) as an if-chain. -/
theorem find4_getD (a b c d t : Nat) :
    ((([a, b, c, d] : List Nat).find? (fun v => v != t)).getD 0) =
      if ¬a = t then a else if ¬b = t then b else if ¬c = t then c
      else if ¬d = t then d else 0 := by
  by_cases ha : a = t <;> by_cases hb : b = t <;> by_cases hc : c = t <;> by_cases hd : d = t <;>
    simp [List.find?, bne_of_eq, bne_of_ne, ha, hb, hc, hd]

/-- When one of the four block values differs from the sentinel, the final
loop finds a value. -/
theorem find4_isSome (a b c d t : Nat) (h : ¬a = t ∨ ¬b = t ∨ ¬c = t ∨ ¬d = t) :
    ((([a, b, c, d] : List Nat).find? (fun v => v != t)).isSome) = true := by
  by_cases ha : a = t <;> by_cases hb : b = t <;> by_cases hc : c = t <;> by_cases hd : d = t <;>
    simp [List.find?, bne_of_eq, bne_of_ne, ha, hb, hc, hd] <;> tauto

/-- Establish a property of an if-then-else from both branches. -/
theorem iteP (P : Nat → Prop) (c : Prop) [Decidable c] {x y : Nat}
    (hx : c → P x) (hy : ¬c → P y) : P (if c then x else y) := by
  by_cases h : c
  · rw [if_pos h]
    exact hx h
  · rw [if_neg h]
    exact hy h

/-- The value of the 2x2 merge is one of its four block values and differs
from the sentinel whenever some block value does. -/
theorem mostNonTransparent_value (a b c d t : Nat)
    (h : ¬a = t ∨ ¬b = t ∨ ¬c = t ∨ ¬d = t) :
    (MostNonTransparentColor2x2Paletted a b c d t = a ∨
     MostNonTransparentColor2x2Paletted a b c d t = b ∨
     MostNonTransparentColor2x2Paletted a b c d t = c ∨
     MostNonTransparentColor2x2Paletted a b c d t = d) ∧
    MostNonTransparentColor2x2Paletted a b c d t ≠ t := by
  unfold MostNonTransparentColor2x2Paletted
  refine iteP (fun r => (r = a ∨ r = b ∨ r = c ∨ r = d) ∧ r ≠ t) _
    (fun h1 => absurd h1 (fun h1 =>
      h.elim (fun ha => ha h1.1) (fun hr => hr.elim (fun hb => hb h1.2.1)
        (fun hr2 => hr2.elim (fun hc => hc h1.2.2.1) (fun hd => hd h1.2.2.2)))))
    (fun hn1 => ?_)
  refine iteP (fun r => (r = a ∨ r = b ∨ r = c ∨ r = d) ∧ r ≠ t) _
    (fun h2 => ⟨Or.inl rfl, h2.1⟩) (fun hn2 => ?_)
  refine iteP (fun r => (r = a ∨ r = b ∨ r = c ∨ r = d) ∧ r ≠ t) _
    (fun h3 => ⟨Or.inl rfl, h3.1⟩) (fun hn3 => ?_)
  refine iteP (fun r => (r = a ∨ r = b ∨ r = c ∨ r = d) ∧ r ≠ t) _
    (fun h4 => ⟨Or.inl rfl, h4.1⟩) (fun hn4 => ?_)
  refine iteP (fun r => (r = a ∨ r = b ∨ r = c ∨ r = d) ∧ r ≠ t) _
    (fun h5 => ⟨Or.inr (Or.inl rfl), h5.1⟩) (fun hn5 => ?_)
  refine iteP (fun r => (r = a ∨ r = b ∨ r = c ∨ r = d) ∧ r ≠ t) _
    (fun h6 => ⟨Or.inl rfl, h6.1⟩) (fun hn6 => ?_)
  refine iteP (fun r => (r = a ∨ r = b ∨ r = c ∨ r = d) ∧ r ≠ t) _
    (fun h7 => ⟨Or.inl rfl, h7.1⟩) (fun hn7 => ?_)
  refine iteP (fun r => (r = a ∨ r = b ∨ r = c ∨ r = d) ∧ r ≠ t) _
    (fun h8 => ⟨Or.inl rfl, h8.1⟩) (fun hn8 => ?_)
  refine iteP (fun r => (r = a ∨ r = b ∨ r = c ∨ r = d) ∧ r ≠ t) _
    (fun h9 => ⟨Or.inr (Or.inl rfl), h9.1⟩) (fun hn9 => ?_)
  refine iteP (fun r => (r = a ∨ r = b ∨ r = c ∨ r = d) ∧ r ≠ t) _
    (fun h10 => ⟨Or.inr (Or.inl rfl), h10.1⟩) (fun hn10 => ?_)
  refine iteP (fun r => (r = a ∨ r = b ∨ r = c ∨ r = d) ∧ r ≠ t) _
    (fun h11 => ⟨Or.inr (Or.inr (Or.inl rfl)), h11.1⟩) (fun hn11 => ?_)
  rw [find4_getD]
  refine iteP (fun r => (r = a ∨ r = b ∨ r = c ∨ r = d) ∧ r ≠ t) _
    (fun h12 => ⟨Or.inl rfl, h12⟩) (fun hn12 => ?_)
  refine iteP (fun r => (r = a ∨ r = b ∨ r = c ∨ r = d) ∧ r ≠ t) _
    (fun h13 => ⟨Or.inr (Or.inl rfl), h13⟩) (fun hn13 => ?_)
  refine iteP (fun r => (r = a ∨ r = b ∨ r = c ∨ r = d) ∧ r ≠ t) _
    (fun h14 => ⟨Or.inr (Or.inr (Or.inl rfl)), h14⟩) (fun hn14 => ?_)
  refine iteP (fun r => (r = a ∨ r = b ∨ r = c ∨ r = d) ∧ r ≠ t) _
    (fun h15 => ⟨Or.inr (Or.inr (Or.inr rfl)), h15⟩) (fun hn15 => ?_)
  exact absurd h (fun hh =>
    hh.elim (fun ha => ha (not_not.mp hn12))
      (fun hr => hr.elim (fun hb => hb (not_not.mp hn13))
        (fun hr2 => hr2.elim (fun hc => hc (not_not.mp hn14))
          (fun hd => hd (not_not.mp hn15)))))

/-! ## C2: the 2x2 majority rule matches the spec's reference -/

/-- C2: with sentinel 0, `MostNonTransparentColor2x2Paletted` computes
exactly the spec's majority-non-transparent reference, and in particular
maps the block (5,5,5,0) to 5, (5,7,0,0) to 5 and (0,0,0,0) to 0. -/
theorem mostNonTransparent_matches_ref :
    (∀ a b c d : Nat,
      MostNonTransparentColor2x2Paletted a b c d 0 = MostNonTransparentColor2x2Ref a b c d) ∧
    MostNonTransparentColor2x2Paletted 5 5 5 0 0 = 5 ∧
    MostNonTransparentColor2x2Paletted 5 7 0 0 0 = 5 ∧
    MostNonTransparentColor2x2Paletted 0 0 0 0 0 = 0 := by
  refine ⟨fun a b c d => ?_, by decide, by decide, by decide⟩
  unfold MostNonTransparentColor2x2Paletted MostNonTransparentColor2x2Ref
  rw [find4_getD]
  refine if_congr Iff.rfl rfl ?_
  refine if_congr (by tauto) rfl ?_
  refine if_congr (by tauto) rfl ?_
  refine if_congr (by tauto) rfl ?_
  refine if_congr (by tauto) rfl ?_
  refine if_congr (by tauto) rfl ?_
  refine if_congr (by tauto) rfl ?_
  refine if_congr (by tauto) rfl ?_
  refine if_congr (by tauto) rfl ?_
  refine if_congr (by tauto) rfl ?_
  refine if_congr (by tauto) rfl ?_
  rfl

/-! ## C9: the merge rule returns a non-transparent block value -/

/-- C9: whenever one of a, b, c, d differs from the sentinel, the function
returns one of a, b, c, d, different from the sentinel; and the final
loop's search succeeds, so its trailing `return 0` fallback is never the
value used. -/
theorem mostNonTransparent_nonTransparent (a b c d t : Nat)
    (h : ¬a = t ∨ ¬b = t ∨ ¬c = t ∨ ¬d = t) :
    (MostNonTransparentColor2x2Paletted a b c d t = a ∨
     MostNonTransparentColor2x2Paletted a b c d t = b ∨
     MostNonTransparentColor2x2Paletted a b c d t = c ∨
     MostNonTransparentColor2x2Paletted a b c d t = d) ∧
    MostNonTransparentColor2x2Paletted a b c d t ≠ t ∧
    ((([a, b, c, d] : List Nat).find? (fun v => v != t)).isSome) = true :=
  ⟨(mostNonTransparent_value a b c d t h).1, (mostNonTransparent_value a b c d t h).2,
   find4_isSome a b c d t h⟩

/-- Witness for C9 at the concrete block (1,0,0,0) with sentinel 0. -/
theorem mostNonTransparent_nonTransparent_witness :
    (MostNonTransparentColor2x2Paletted 1 0 0 0 0 = 1 ∨
     MostNonTransparentColor2x2Paletted 1 0 0 0 0 = 0 ∨
     MostNonTransparentColor2x2Paletted 1 0 0 0 0 = 0 ∨
     MostNonTransparentColor2x2Paletted 1 0 0 0 0 = 0) ∧
    MostNonTransparentColor2x2Paletted 1 0 0 0 0 ≠ 0 ∧
    ((([1, 0, 0, 0] : List Nat).find? (fun v => v != 0)).isSome) = true :=
  mostNonTransparent_nonTransparent 1 0 0 0 0 (Or.inl (by decide))

/-! ## C7: StatTile reports a missing row as (false, 0) without error -/

/-- C7: a no-rows scan yields `(false, 0)` with a nil error, and a non-nil
error is returned exactly for scan failures other than `sql.ErrNoRows`. -/
theorem statTile_noRows_ok (db : TileDB) (z x y : Int) :
    (db.stmtStat z x y = .error .noRows → db.StatTile z x y = (false, 0, none)) ∧
    (∀ e, (db.StatTile z x y).2.2 = some e →
      db.stmtStat z x y = .error e ∧ e ≠ RowErr.noRows) := by
  constructor
  · intro h
    simp [TileDB.StatTile, h]
  · intro e he
    unfold TileDB.StatTile at he
    cases hq : db.stmtStat z x y with
    | error e2 =>
      rw [hq] at he
      by_cases h2 : e2 = RowErr.noRows <;> simp [h2] at he
      subst he
      exact ⟨rfl, h2⟩
    | ok crc =>
      rw [hq] at he
      simp at he

/-! ## C10: a destination stat failure is treated as a skip -/

/-- C10: with `force = false`, a non-nil destination stat error makes
`processData` return `(skip = true, nil)` without reaching the decode or
the write. -/
theorem processData_statError_skips (g : Ingester) (env : ImgEnv) (j : IngestJobRec)
    (hf : g.force = false) (he : ((g.db.StatTile j.Z j.X j.Y).2.2).isSome = true) :
    g.processData env j = ⟨true, false, false, false⟩ := by
  unfold Ingester.processData
  simp only [hf, he, Bool.or_true, Bool.not_false, Bool.and_true, if_true]

/-- Witness for C10: an unforced ingester whose destination stat always
fails skips the record. -/
theorem processData_statError_skips_witness :
    Ingester.processData ingStatFails imgEnvId ⟨0, 0, 0, [], 0⟩ = ⟨true, false, false, false⟩ :=
  processData_statError_skips ingStatFails imgEnvId ⟨0, 0, 0, [], 0⟩ rfl (by decide)

/-! ## C4: unknown version answers 500, not 404; out-of-range answers 400 -/

/-- C4 counterexample: with only version v1 loaded, an in-range request for
version v2 answers 500 (the unknown-version error is not
`sql.ErrNoRows`), not the 404 the claim states. -/
theorem serveTile_unknownVersion_counterexample :
    serveTile tsOnlyV1 0 0 0 (strB ("v2")) = 500 ∧ (500 : Nat) ≠ 404 := by
  decide

/-- C4 amended: an in-range request for a version that is not loaded
answers 500, and a request at z = 12 answers 400. -/
theorem serveTile_unknownVersion (ts : TileServer) (z x y : Int) (version : Str)
    (hz0 : 0 ≤ z) (hz : z ≤ 11) (hx0 : 0 ≤ x) (hx : x < 2 ^ z.toNat)
    (hy0 : 0 ≤ y) (hy : y < 2 ^ z.toNat)
    (hv : ts.stmts.lookup version = none) :
    serveTile ts z x y version = 500 ∧ serveTile ts 12 x y version = 400 := by
  constructor
  · have h1 : ¬z < 0 := by omega
    have h2 : ¬z > 11 := by omega
    have h3 : ¬x < 0 := by omega
    have h4 : ¬y < 0 := by omega
    have h5 : ¬x ≥ 2 ^ z.toNat := by omega
    have h6 : ¬y ≥ 2 ^ z.toNat := by omega
    simp [serveTile, TileServer.GetTile, h1, h2, h3, h4, h5, h6, hv]
  · unfold serveTile
    norm_num

/-- Witness for the amended C4 at version v2 against a server with no
loaded versions. -/
theorem serveTile_unknownVersion_witness :
    serveTile tsNone 0 0 0 (strB ("v2")) = 500 ∧ serveTile tsNone 12 0 0 (strB ("v2")) = 400 :=
  serveTile_unknownVersion tsNone 0 0 0 (strB ("v2")) (by decide) (by decide) (by decide)
    (by decide) (by decide) (by decide) rfl

/-! ## C8: the static palette table and the palette built from it -/

/-- C8: the table has 63 entries with pairwise distinct RGB triples and
pairwise distinct indices, all indices lie in 1..63, the built palette is
transparent at 0 and opaque on 1..63, and the rgb-to-index and
index-to-rgb mappings invert each other on 1..63. -/
theorem paletteTable_invariants :
    colorToIndex.length = 63 ∧
    (colorToIndex.map (fun e => e.1)).Nodup ∧
    (colorToIndex.map (fun e => e.2)).Nodup ∧
    (∀ e ∈ colorToIndex, 1 ≤ e.2 ∧ e.2 ≤ 63) ∧
    paletteColor 0 = (0, 0, 0, 0) ∧
    (∀ i < 64, i ≠ 0 → (paletteColor i).2.2.2 = 255) ∧
    (∀ e ∈ colorToIndex, paletteColor e.2 = (e.1.1, e.1.2.1, e.1.2.2, 255)) ∧
    (∀ e ∈ colorToIndex, colorToIndex.find? (fun e2 => e2.1 == e.1) = some e) ∧
    (∀ i < 64, i ≠ 0 → ∃ e ∈ colorToIndex, e.2 = i ∧
      paletteColor i = (e.1.1, e.1.2.1, e.1.2.2, 255)) :=
  ⟨by decide, by decide, by decide, by decide, by decide, by decide, by decide, by decide,
   by decide⟩

/-! ## C5: the planning scenario -/

/-- C5 counterexample: on the scenario's five releases and done set the
code emits three jobs, but the day-7 job is a diff (against the major-0
base), not a full base, and the day-8 job is the full `v1` base whose
`base` field is empty rather than `v1.000_2025-01-07T00.db`. -/
theorem makeJobs_scenario_counterexample :
    MakeJobs scReleases scDones = .ok [scJob1, scJob2, scJob3] ∧
    scJob1.isDiff = true ∧ scJob2.isDiff = false ∧
    scJob2.base ≠ strB ("v1.000_2025-01-07T00.db") := by
  decide

/-- C5 amended: the scenario yields exactly three jobs for days 7, 8 and 9:
a day-7 diff against the existing major-0 base, a day-8 full base
`v1_2025-01-08T00.db`, and a day-9 diff whose base is that day-8 file. -/
theorem makeJobs_scenario :
    MakeJobs scReleases scDones = .ok [scJob1, scJob2, scJob3] := by
  decide

/-! ## C1: the per-pixel diff and its changed flag -/

/-- C1 counterexample: for base [1,2,3] and new [0,2,3] the diff image is
[0,0,0] yet `DiffPaletted` reports `changed = true` (the flag is set by the
pixel comparison, not by the diff being non-zero), against the claimed
`changed = false`. -/
theorem diffPaletted_changed_counterexample :
    DiffPaletted ⟨[], [1, 2, 3]⟩ ⟨[], [0, 2, 3]⟩ = .ok (⟨[], [0, 0, 0]⟩, true) ∧
    (∀ x ∈ ([0, 0, 0] : List Nat), x = 0) := by
  decide

/-- C1 amended: on same-palette same-size inputs, `DiffPaletted` succeeds
with `diff[i] = new[i]` where the pixels differ and 0 elsewhere, and
`changed = true` exactly when some pixel of new differs from base (so for
base [1,2,3], new [0,2,3] it returns diff [0,0,0] and changed = true). -/
theorem diffPaletted_spec (base new : Paletted) (hpal : base.palette = new.palette)
    (hlen : base.pix.length = new.pix.length) :
    ∃ d ch, DiffPaletted base new = .ok (d, ch) ∧ d.palette = base.palette ∧
      d.pix.length = new.pix.length ∧
      (∀ i, (h1 : i < base.pix.length) → (h2 : i < new.pix.length) → (h3 : i < d.pix.length) →
        d.pix[i] = if new.pix[i] ≠ base.pix[i] then new.pix[i] else 0) ∧
      (ch = true ↔ ∃ i, ∃ (h1 : i < base.pix.length) (h2 : i < new.pix.length),
        base.pix[i] ≠ new.pix[i]) := by
  refine ⟨⟨base.palette, List.zipWith (fun b n => if b ≠ n then n else 0) base.pix new.pix⟩,
    (List.zip base.pix new.pix).any (fun p => p.1 != p.2), ?_, rfl, ?_, ?_, ?_⟩
  · simp [DiffPaletted, hpal, hlen]
  · simp [hlen]
  · intro i h1 h2 h3
    rw [List.getElem_zipWith]
    by_cases hbn : base.pix[i] = new.pix[i]
    · simp [hbn]
    · simp [hbn, Ne.symm hbn]
  · rw [List.any_eq_true]
    constructor
    · rintro ⟨p, hp, hpe⟩
      obtain ⟨j, hj, hpj⟩ := List.mem_iff_getElem.mp hp
      have hj1 : j < base.pix.length := by
        rw [List.length_zip] at hj
        omega
      have hj2 : j < new.pix.length := by
        rw [List.length_zip] at hj
        omega
      refine ⟨j, hj1, hj2, ?_⟩
      rw [List.getElem_zip] at hpj
      subst hpj
      simpa using hpe
    · rintro ⟨i, h1, h2, hne⟩
      have hi : i < (List.zip base.pix new.pix).length := by
        rw [List.length_zip]
        omega
      refine ⟨(base.pix[i], new.pix[i]), ?_, ?_⟩
      · exact List.mem_iff_getElem.mpr ⟨i, hi, List.getElem_zip⟩
      · simpa using hne

/-- Witness for the amended C1 at base [1,2], new [2,2]: the hypotheses
hold and the diff succeeds. -/
theorem diffPaletted_spec_witness :
    (Paletted.palette ⟨[], [1, 2]⟩ = Paletted.palette ⟨[], [2, 2]⟩) ∧
    (∃ d ch, DiffPaletted ⟨[], [1, 2]⟩ ⟨[], [2, 2]⟩ = .ok (d, ch)) :=
  ⟨rfl, (diffPaletted_spec ⟨[], [1, 2]⟩ ⟨[], [2, 2]⟩ rfl rfl).elim
    (fun d hd => hd.elim (fun ch hch => ⟨d, ch, hch.1⟩))⟩

/-! ## C3: undiff inverts diff when new has no transparent pixels -/

/-- Applying the undiff pixel rule to the diff pixel rule gives back the
new pixels when none of them is 0. -/
theorem undiff_zip (bp np : List Nat) (h : bp.length = np.length)
    (hz : ∀ x ∈ np, x ≠ 0) :
    List.zipWith (fun b n => if n = 0 then b else n) bp
      (List.zipWith (fun b n => if b ≠ n then n else 0) bp np) = np := by
  induction bp generalizing np with
  | nil =>
    cases np with
    | nil => rfl
    | cons n np => simp at h
  | cons b bp ih =>
    cases np with
    | nil => simp at h
    | cons n np =>
      simp only [List.zipWith]
      congr 1
      · by_cases hbn : b = n
        · simp [hbn]
        · have hn0 : n ≠ 0 := hz n (List.mem_cons_self n np)
          simp [hbn, hn0]
      · refine ih np ?_ (fun x hx => hz x (List.mem_cons_of_mem n hx))
        simpa using h

/-- C3: for same-palette same-size images with no 0 pixel in new,
`UnDiffPaletted base (DiffPaletted base new).diff` is new again. -/
theorem diff_undiff_roundtrip (base new : Paletted) (hpal : base.palette = new.palette)
    (hlen : base.pix.length = new.pix.length) (hz : ∀ x ∈ new.pix, x ≠ 0) :
    ∃ d ch, DiffPaletted base new = .ok (d, ch) ∧ UnDiffPaletted base d = .ok new := by
  refine ⟨⟨base.palette, List.zipWith (fun b n => if b ≠ n then n else 0) base.pix new.pix⟩,
    (List.zip base.pix new.pix).any (fun p => p.1 != p.2), ?_, ?_⟩
  · simp [DiffPaletted, hpal, hlen]
  · obtain ⟨npal, npix⟩ := new
    simp only at hpal hlen hz
    unfold UnDiffPaletted
    rw [if_neg (by simp), if_neg (by simp [hlen])]
    rw [undiff_zip base.pix npix hlen hz]
    rw [hpal]

/-- Witness for C3 at base [1,2], new [2,1] over the empty palette. -/
theorem diff_undiff_roundtrip_witness :
    ∃ d ch, DiffPaletted ⟨[], [1, 2]⟩ ⟨[], [2, 1]⟩ = .ok (d, ch) ∧
      UnDiffPaletted ⟨[], [1, 2]⟩ d = .ok ⟨[], [2, 1]⟩ :=
  diff_undiff_roundtrip ⟨[], [1, 2]⟩ ⟨[], [2, 1]⟩ rfl rfl (by decide)

/-! ## C6: decimal formatting and parsing round-trip lemmas -/

/-- Every byte produced by the digit printer is an ASCII digit. -/
theorem digitsRevAux_mem (fuel : Nat) :
    ∀ n, ∀ b ∈ digitsRevAux fuel n, 48 ≤ b ∧ b ≤ 57 := by
  induction fuel with
  | zero =>
    intro n b hb
    simp [digitsRevAux] at hb
  | succ fuel ih =>
    intro n b hb
    unfold digitsRevAux at hb
    by_cases hn : n = 0
    · simp [hn] at hb
    · rw [if_neg hn] at hb
      rcases List.mem_cons.mp hb with h | h
      · subst h
        have := Nat.mod_lt n (show 0 < 10 by omega)
        omega
      · exact ih (n / 10) b h

/-- Every byte of a printed natural number is an ASCII digit. -/
theorem natToStr_mem (n : Nat) : ∀ b ∈ natToStr n, 48 ≤ b ∧ b ≤ 57 := by
  intro b hb
  unfold natToStr at hb
  by_cases hn : n = 0
  · rw [if_pos hn] at hb
    simp at hb
    omega
  · rw [if_neg hn] at hb
    exact digitsRevAux_mem n n b (List.mem_reverse.mp hb)

/-- A printed natural number is never the empty string. -/
theorem natToStr_ne_nil (n : Nat) : natToStr n ≠ [] := by
  unfold natToStr
  by_cases hn : n = 0
  · simp [hn]
  · rw [if_neg hn]
    obtain ⟨m, rfl⟩ := Nat.exists_eq_succ_of_ne_zero hn
    unfold digitsRevAux
    rw [if_neg hn]
    simp

/-- Folding the decimal digits of `n` onto accumulator `a` gives
`a * 10 ^ digits + n`. -/
theorem foldl_digitsRevAux (fuel : Nat) :
    ∀ n a, n ≤ fuel →
      List.foldl (fun acc b => acc * 10 + (b - 48)) a ((digitsRevAux fuel n).reverse) =
        a * 10 ^ (digitsRevAux fuel n).length + n := by
  induction fuel with
  | zero =>
    intro n a hn
    have : n = 0 := by omega
    subst this
    simp [digitsRevAux]
  | succ fuel ih =>
    intro n a hn
    by_cases hn0 : n = 0
    · subst hn0
      simp [digitsRevAux]
    · unfold digitsRevAux
      rw [if_neg hn0]
      rw [List.reverse_cons, List.foldl_append]
      have hdiv : n / 10 ≤ fuel := by
        have := Nat.div_lt_self (Nat.pos_of_ne_zero hn0) (show 1 < 10 by omega)
        omega
      rw [ih (n / 10) a hdiv]
      have h1 : n % 10 + 48 - 48 = n % 10 := by omega
      have h2 := Nat.div_add_mod n 10
      simp only [List.foldl_cons, List.foldl_nil, List.length_cons]
      rw [h1, pow_succ]
      have h3 : (a * 10 ^ (digitsRevAux fuel (n / 10)).length + n / 10) * 10 =
          a * (10 ^ (digitsRevAux fuel (n / 10)).length * 10) + n / 10 * 10 := by
        ring
      omega

/-- The scanner applied to zero-padding plus a printed natural reads the
natural back. -/
theorem takeWhile_eq_self_of_all (p : Nat → Bool) (l : List Nat)
    (h : ∀ b ∈ l, p b = true) : l.takeWhile p = l := by
  induction l with
  | nil => rfl
  | cons b bs ih =>
    unfold List.takeWhile
    rw [h b (List.mem_cons_self b bs)]
    rw [ih (fun x hx => h x (List.mem_cons_of_mem b hx))]

/-- Leading ASCII zeros contribute nothing to the folded value. -/
theorem foldl_replicate48 (k : Nat) :
    List.foldl (fun acc b => acc * 10 + (b - 48)) 0 (List.replicate k 48) = 0 := by
  induction k with
  | zero => rfl
  | succ k ih =>
    rw [List.replicate_succ, List.foldl_cons]
    simpa using ih

/-- `scanNat` is a left inverse of zero-padded decimal printing. -/
theorem scanNat_pad_natToStr (k n : Nat) :
    scanNat (List.replicate k 48 ++ natToStr n) = some n := by
  unfold scanNat
  have hall : ∀ b ∈ List.replicate k 48 ++ natToStr n, isDigitB b = true := by
    intro b hb
    rcases List.mem_append.mp hb with h | h
    · have := List.eq_of_mem_replicate h
      subst this
      rfl
    · have := natToStr_mem n b h
      unfold isDigitB
      simp
      omega
  rw [takeWhile_eq_self_of_all _ _ hall]
  have hne : List.replicate k 48 ++ natToStr n ≠ [] := by
    intro hcon
    exact natToStr_ne_nil n (List.append_eq_nil.mp hcon).2
  rw [if_neg hne]
  rw [List.foldl_append, foldl_replicate48]
  unfold natToStr
  by_cases hn : n = 0
  · simp [hn]
  · rw [if_neg hn]
    rw [foldl_digitsRevAux n n 0 (Nat.le_refl n)]
    simp

/-- On an all-digit non-empty string, `scanInt` defers to `scanNat`. -/
theorem scanInt_digits (s : Str) (hne : s ≠ []) (hd : ∀ b ∈ s, 48 ≤ b ∧ b ≤ 57) :
    scanInt s = (scanNat s).map (fun n => (n : Int)) := by
  cases s with
  | nil => exact absurd rfl hne
  | cons b rest =>
    have hb := hd b (List.mem_cons_self b rest)
    have h45 : ¬b = 45 := by omega
    have h43 : ¬b = 43 := by omega
    simp only [scanInt]
    rw [if_neg h45, if_neg h43]

/-- Splitting a dot-free string gives the string back as one part. -/
theorem splitDotB_no_dot (s : Str) (h : ∀ b ∈ s, b ≠ 46) : splitDotB s = [s] := by
  induction s with
  | nil => rfl
  | cons b bs ih =>
    unfold splitDotB
    rw [if_neg (h b (List.mem_cons_self b bs))]
    rw [ih (fun x hx => h x (List.mem_cons_of_mem b hx))]

/-- Splitting around one dot separates the two sides (the left side being
dot-free). -/
theorem splitDotB_append (l r : Str) (h : ∀ b ∈ l, b ≠ 46) :
    splitDotB (l ++ 46 :: r) = l :: splitDotB r := by
  induction l with
  | nil => rfl
  | cons b bs ih =>
    show splitDotB (b :: (bs ++ 46 :: r)) = (b :: bs) :: splitDotB r
    conv_lhs => unfold splitDotB
    rw [if_neg (h b (List.mem_cons_self b bs))]
    rw [ih (fun x hx => h x (List.mem_cons_of_mem b hx))]

/-- Every byte of `%03d` output for a non-negative int is a digit. -/
theorem intToStr3_mem (m : Int) (hm : 0 ≤ m) :
    ∀ b ∈ intToStr3 m, 48 ≤ b ∧ b ≤ 57 := by
  intro b hb
  rw [intToStr3, if_neg (by omega)] at hb
  unfold zeroPad at hb
  rcases List.mem_append.mp hb with h | h
  · have := List.eq_of_mem_replicate h
    omega
  · exact natToStr_mem _ b h

/-- `%03d` output of a non-negative int is non-empty. -/
theorem intToStr3_ne_nil (m : Int) (hm : 0 ≤ m) : intToStr3 m ≠ [] := by
  rw [intToStr3, if_neg (by omega)]
  unfold zeroPad
  intro hcon
  exact natToStr_ne_nil _ (List.append_eq_nil.mp hcon).2

/-- `scanNat` reads `%03d` output of a non-negative int back. -/
theorem scanNat_intToStr3 (m : Int) (hm : 0 ≤ m) :
    scanNat (intToStr3 m) = some m.toNat := by
  rw [intToStr3, if_neg (by omega)]
  unfold zeroPad
  exact scanNat_pad_natToStr _ _

/-- C6 counterexample: the base version with major 0 and minor 5 prints as
v0, which parses back with minor 0, not 5. -/
theorem processedVersion_roundtrip_counterexample :
    ProcessedVersionFromString (ProcessedVersion.string ⟨0, 5, true⟩) = some ⟨0, 0, true⟩ ∧
    (⟨0, 0, true⟩ : ProcessedVersion) ≠ ⟨0, 5, true⟩ := by
  decide

/-- C6 amended: parsing inverts printing for every version with
non-negative major, minor in [0,168), provided a base version carries
minor 0 (the string form of a base drops the minor, so other minors
cannot survive the round-trip). -/
theorem processedVersion_roundtrip (pv : ProcessedVersion)
    (h1 : 0 ≤ pv.Major) (h2 : 0 ≤ pv.Minor) (h3 : pv.Minor < 168)
    (h4 : pv.IsBase = true → pv.Minor = 0) :
    ProcessedVersionFromString pv.string = some pv := by
  obtain ⟨M, m, b⟩ := pv
  simp only at h1 h2 h3 h4
  have hMdigits : ∀ x ∈ intToStr M, 48 ≤ x ∧ x ≤ 57 := by
    intro x hx
    rw [intToStr, if_neg (by omega)] at hx
    exact natToStr_mem _ x hx
  have hMne : intToStr M ≠ [] := by
    rw [intToStr, if_neg (by omega)]
    exact natToStr_ne_nil _
  have hMscan : scanInt (intToStr M) = some M := by
    rw [scanInt_digits _ hMne hMdigits]
    rw [intToStr, if_neg (by omega)]
    have := scanNat_pad_natToStr 0 M.toNat
    simp only [List.replicate, List.nil_append] at this
    rw [this]
    simp [Int.toNat_of_nonneg h1]
  cases b with
  | true =>
    have hm : m = 0 := h4 rfl
    subst hm
    have hstr : ProcessedVersion.string ⟨M, 0, true⟩ = 118 :: intToStr M := by
      simp [ProcessedVersion.string]
    rw [hstr]
    unfold ProcessedVersionFromString
    have htrim : trimPfxV (118 :: intToStr M) = intToStr M := rfl
    rw [htrim]
    rw [splitDotB_no_dot _ (fun x hx => by have := hMdigits x hx; omega)]
    simp [hMscan]
  | false =>
    have hstr : ProcessedVersion.string ⟨M, m, false⟩ =
        118 :: (intToStr M ++ 46 :: intToStr3 m) := by
      simp [ProcessedVersion.string]
    rw [hstr]
    unfold ProcessedVersionFromString
    have htrim : trimPfxV (118 :: (intToStr M ++ 46 :: intToStr3 m)) =
        intToStr M ++ 46 :: intToStr3 m := rfl
    rw [htrim]
    rw [splitDotB_append _ _ (fun x hx => by have := hMdigits x hx; omega)]
    rw [splitDotB_no_dot _ (fun x hx => by have := intToStr3_mem m h2 x hx; omega)]
    have hmscan : scanInt (intToStr3 m) = some m := by
      rw [scanInt_digits _ (intToStr3_ne_nil m h2) (intToStr3_mem m h2)]
      rw [scanNat_intToStr3 m h2]
      simp [Int.toNat_of_nonneg h2]
    simp [hMscan, hmscan]

/-- Witness for the amended C6 at the version v1.024. -/
theorem processedVersion_roundtrip_witness :
    ProcessedVersionFromString (ProcessedVersion.string ⟨1, 24, false⟩) =
      some ⟨1, 24, false⟩ :=
  processedVersion_roundtrip ⟨1, 24, false⟩ (by decide) (by decide) (by decide) (by decide)

end Wplace
